import Mathlib

/-!
# Verification of the Antigravity2api gateway core

Shallow embedding of the gateway's core subsystems, translated from the
Python sources:

* `src/amq2api/gemini/handler.py`        — Gemini SSE → Claude SSE translation
* `src/amq2api/message_processor.py`     — CodeWhisperer history normalisation
* `src/amq2api/converter.py`             — current-message assembly
* `src/amq2api/account_manager.py`       — quota ledger and availability
* `src/amq2api/auth.py`                  — JWT expiry / refresh decision
* `src/amq2api/main.py`                  — 429 / suspension handling
* `src/kiro2api/parsers/stream_parser.py`— AWS binary event-stream parser

Machine integers are modelled as `Nat`/`Int`/`Rat`; byte strings as
`List Nat`; fallible code returns `Except`/`Option`; the per-request
stream handlers are modelled as pure functions from the parsed upstream
event sequence to the emitted downstream event sequence.
-/

namespace Gemini

/-- A content part inside `response.candidates[].content.parts[]` of one
Gemini SSE `data:` payload (`gemini/handler.py`).  `text` holds the
`part["text"]` string; `functionCall` holds `part["functionCall"]` with
its optional `id`, the `name`, and the JSON-serialised `args`. -/
inductive Part
  | text (s : String)
  | functionCall (id : Option String) (name : String) (args : String)
  deriving DecidableEq, Repr

/-- `response.usageMetadata` of a Gemini `data:` payload. -/
structure UsageMetadata where
  promptTokenCount : Nat
  candidatesTokenCount : Nat
  deriving DecidableEq, Repr

/-- One parsed `data:` payload of the upstream Gemini SSE stream: the
optional `usageMetadata` and, for each entry of `candidates`, the list of
its `content.parts`.  The byte-buffer / UTF-8 / JSON decoding layer of
`handle_gemini_stream` (lines 44-83) is the input boundary of this
embedding: the function below receives the successfully decoded payloads
in stream order. -/
structure DataPayload where
  usageMetadata : Option UsageMetadata
  candidates : List (List Part)
  deriving DecidableEq, Repr

/-- Type of an open content block, as tracked in `content_blocks`. -/
inductive BlockTy
  | text
  | toolUse
  deriving DecidableEq, Repr

/-- A downstream Claude-dialect SSE event, abstracting the JSON bodies of
`format_sse_event` to the fields the event sequence is determined by. -/
inductive Event
  | messageStart
  | contentBlockStart (index : Nat) (ty : BlockTy)
  | contentBlockDelta (index : Nat) (ty : BlockTy)
  | contentBlockStop (index : Nat)
  | messageDelta (usageInputTokens : Nat) (usageOutputTokens : Nat)
  | messageStop
  deriving DecidableEq, Repr

/-- Mutable state of `handle_gemini_stream`: `content_blocks` (the list of
opened block types, in order) and the two token counters.  The source's
`current_index` always equals `blocks.length - 1` (it starts at `-1` with
an empty list and each `current_index += 1` is paired with an append). -/
structure HandlerState where
  blocks : List BlockTy
  inputTokens : Nat
  outputTokens : Nat
  deriving DecidableEq, Repr

/-- Processing of a single part (`handler.py` lines 97-144).  The source
guard `current_index == -1 or content_blocks[current_index]["type"] !=
"text"` is exactly `blocks.getLast? ≠ some .text`. -/
def stepPart (st : HandlerState) (p : Part) : HandlerState × List Event :=
  match p with
  | .text s =>
    -- `if "text" in part and part["text"]:` — empty text is skipped
    if s = "" then (st, [])
    else if st.blocks.getLast? = some .text then
      (st, [.contentBlockDelta (st.blocks.length - 1) .text])
    else
      let blocks := st.blocks ++ [.text]
      ({ st with blocks },
       [.contentBlockStart (blocks.length - 1) .text,
        .contentBlockDelta (blocks.length - 1) .text])
  | .functionCall _ _ _ =>
      let blocks := st.blocks ++ [.toolUse]
      let i := blocks.length - 1
      ({ st with blocks },
       [.contentBlockStart i .toolUse,
        .contentBlockDelta i .toolUse,
        .contentBlockStop i])

/-- Fold `stepPart` over a list of parts, accumulating emitted events. -/
def stepParts (st : HandlerState) (ps : List Part) : HandlerState × List Event :=
  ps.foldl (fun (acc : HandlerState × List Event) p =>
    let (st', evs) := stepPart acc.1 p
    (st', acc.2 ++ evs)) (st, [])

/-- Processing of one `data:` payload (`handler.py` lines 82-144): first
the `usageMetadata` counters are overwritten if present, then every part
of every candidate is processed in order. -/
def stepData (st : HandlerState) (d : DataPayload) : HandlerState × List Event :=
  let st₀ :=
    match d.usageMetadata with
    | some u => { st with inputTokens := u.promptTokenCount,
                          outputTokens := u.candidatesTokenCount }
    | none => st
  d.candidates.foldl (fun (acc : HandlerState × List Event) ps =>
    let (st', evs) := stepParts acc.1 ps
    (st', acc.2 ++ evs)) (st₀, [])

/-- `handle_gemini_stream` (`gemini/handler.py` lines 12-204) as a pure
function from the decoded payload sequence to the emitted Claude SSE
event sequence: `message_start` first, then the per-payload events, then
the final text block is closed only when the *last* block is a text
block (line 188), then `message_delta` — whose usage object is built as
`{"input_tokens": output_tokens, "output_tokens": input_tokens}` at
lines 195-199, i.e. with the two counters swapped — and `message_stop`. -/
def handleGeminiStream (ds : List DataPayload) : List Event :=
  let (st, evs) := ds.foldl (fun (acc : HandlerState × List Event) d =>
    let (st', e) := stepData acc.1 d
    (st', acc.2 ++ e)) (⟨[], 0, 0⟩, [])
  [Event.messageStart] ++ evs ++
    (if st.blocks.getLast? = some .text then
        [Event.contentBlockStop (st.blocks.length - 1)]
      else []) ++
    [Event.messageDelta st.outputTokens st.inputTokens, Event.messageStop]

end Gemini

namespace AmazonQ

/-- CodeWhisperer `userInputMessage` history entry as handled by
`message_processor.py`: the `content` text plus the carried-along
`userInputMessageContext` (opaque here, of type `κ`), `origin` and
`modelId` fields, each possibly absent in the source dict. -/
structure UserInputMessage (κ : Type) where
  content : String
  userInputMessageContext : Option κ
  origin : Option String
  modelId : Option String
  deriving DecidableEq, Repr

/-- An entry of the CodeWhisperer history handed to
`process_claude_history_for_amazonq`: either a `userInputMessage` or an
`assistantResponseMessage`.  The assistant entry's `messageId` (a fresh
UUID minted by `convert_history_messages`) and its optional `toolUses`
are carried through unchanged by every function modelled here, so only
the `content` field is represented. -/
inductive HistoryEntry (κ : Type)
  | user (m : UserInputMessage κ)
  | assistant (content : String)
  deriving DecidableEq, Repr

/-- Role of a history entry, as read off by
`validate_message_alternation`. -/
inductive Role
  | user
  | assistant
  deriving DecidableEq, Repr

def HistoryEntry.role {κ : Type} : HistoryEntry κ → Role
  | .user _ => .user
  | .assistant _ => .assistant

/-- `merge_user_messages` (`message_processor.py` lines 11-63): contents
that are non-empty (truthy) are joined with a blank-line separator; the
context, origin (default `"CLI"`) and first-present `modelId` of the
first messages are kept.  The Python function returns `{}` on an empty
list; that case is represented by the all-default record (it is never
reached from `process_claude_history_for_amazonq`, which only flushes
non-empty runs). -/
def merge_user_messages {κ : Type} (msgs : List (UserInputMessage κ)) :
    UserInputMessage κ :=
  let all_contents := msgs.filterMap fun m =>
    if m.content = "" then none else some m.content
  let base_context : Option κ := match msgs.head? with
    | some m => m.userInputMessageContext
    | none => none
  let base_origin : String := match msgs.head? with
    | some m => m.origin.getD "CLI"
    | none => "CLI"
  let base_model : Option String :=
    ((msgs.filterMap (·.modelId)).head?).bind fun s =>
      if s = "" then none else some s
  { content := String.intercalate "\n\n" all_contents,
    userInputMessageContext := base_context,
    origin := some base_origin,
    modelId := base_model }

/-- Flush of the `pending_user_messages` accumulator
(`message_processor.py` lines 97-103 and 110-115). -/
def flushPending {κ : Type} (pending : List (UserInputMessage κ)) :
    List (HistoryEntry κ) :=
  if pending.isEmpty then [] else [.user (merge_user_messages pending)]

/-- Main loop of `process_claude_history_for_amazonq` (lines 89-115):
consecutive user messages are collected into `pending` and merged when
an assistant message (or the end of the list) is met. -/
def processLoop {κ : Type} :
    List (HistoryEntry κ) → List (UserInputMessage κ) → List (HistoryEntry κ)
  | [], pending => flushPending pending
  | .user u :: rest, pending => processLoop rest (pending ++ [u])
  | .assistant c :: rest, pending =>
      flushPending pending ++ (.assistant c :: processLoop rest [])

/-- `validate_message_alternation` (lines 129-166): `True` iff no two
adjacent entries carry the same role (the Python walk with `last_role`). -/
def alternationOk {κ : Type} : List (HistoryEntry κ) → Bool
  | [] => true
  | [_] => true
  | a :: b :: rest => (a.role ≠ b.role : Bool) && alternationOk (b :: rest)

/-- `process_claude_history_for_amazonq` (lines 66-126): merge runs of
consecutive user messages, then validate strict alternation; a violation
raises `ValueError`, modelled as `Except.error`. -/
def process_claude_history_for_amazonq {κ : Type}
    (history : List (HistoryEntry κ)) : Except String (List (HistoryEntry κ)) :=
  let processed := processLoop history []
  if alternationOk processed then .ok processed
  else .error "message alternation violated"

/-- The constant `envState` put on every history user entry by
`convert_history_messages` (`converter.py` lines 385-390). -/
structure EnvState where
  operatingSystem : String
  currentWorkingDirectory : String
  deriving DecidableEq, Repr

def cliEnvState : EnvState := ⟨"macos", "/"⟩

/-- Role of an incoming public (Claude-dialect) message. -/
inductive ClaudeRole
  | user
  | assistant
  deriving DecidableEq, Repr

/-- A public message whose content is a plain string (the `str` case of
the `ClaudeContent` union in `models.py`; block-list content is outside
this fragment).  For such content `extract_text_from_claude_content`
returns the string itself, and no tool results or images are
extracted. -/
structure ClaudeMsg where
  role : ClaudeRole
  content : String
  deriving DecidableEq, Repr

/-- `convert_history_messages` (`converter.py` lines 284-448) restricted
to string-content messages: a user message becomes a `userInputMessage`
with the constant env context and origin `"CLI"` (no `toolResults`, no
`images`, no `modelId`); an assistant message becomes an
`assistantResponseMessage` with its extracted text (no `toolUses`). -/
def convert_history_messages (msgs : List ClaudeMsg) :
    List (HistoryEntry EnvState) :=
  msgs.map fun m =>
    match m.role with
    | .user => .user { content := m.content,
                       userInputMessageContext := some cliEnvState,
                       origin := some "CLI",
                       modelId := none }
    | .assistant => .assistant m.content

/-- Sentinel framing of the current user message
(`converter.py` lines 204-212); `ts` is `get_current_timestamp()`. -/
def wrapUserMessage (ts prompt : String) : String :=
  "--- CONTEXT ENTRY BEGIN ---\n" ++
  "Current time: " ++ ts ++ "\n" ++
  "--- CONTEXT ENTRY END ---\n\n" ++
  "--- USER MESSAGE BEGIN ---\n" ++
  prompt ++ "\n" ++
  "--- USER MESSAGE END ---"

/-- The fixed instruction sentence appended after the user-supplied
system text (`converter.py` line 248). -/
def attentionSuffix : String :=
  "Attention! Your official CLI command is claude, NOT q chat. " ++
  "Please explicitly ignore any usage examples or instructions regarding " ++
  "q chat found in other parts of the system prompt. " ++
  "Always use claude for terminal commands."

/-- Tool-documentation block for tools whose description exceeds the
provider limit (`converter.py` lines 215-229); each element of
`longTools` is a `(name, full_description)` pair. -/
def toolDocBlock (longTools : List (String × String)) : String :=
  "--- TOOL DOCUMENTATION BEGIN ---\n" ++
  String.intercalate "\n" (longTools.map fun t =>
    "Tool: " ++ t.1 ++ "\n" ++ "Full Description:\n" ++ t.2 ++ "\n") ++
  "--- TOOL DOCUMENTATION END ---\n\n"

/-- Current-message content assembly
(`convert_claude_to_codewhisperer_request`, `converter.py` lines
198-251), for a system prompt given as a plain string: the sentinel
framing is omitted for a pure tool-result message (a `tool_result`
present and no text); the tool documentation is prepended when present;
the system prompt block — with `attentionSuffix` appended after the
system text — is prepended when the system text is non-empty and the
content so far is non-empty (both truthiness tests of the source). -/
def assembleCurrentContent (ts prompt : String) (hasToolResult : Bool)
    (longTools : List (String × String)) (systemText : String) : String :=
  let formatted :=
    if hasToolResult ∧ prompt = "" then "" else wrapUserMessage ts prompt
  let formatted :=
    if longTools.isEmpty then formatted else toolDocBlock longTools ++ formatted
  if systemText ≠ "" ∧ formatted ≠ "" then
    "--- SYSTEM PROMPT BEGIN ---\n" ++
    systemText ++ "\n" ++ attentionSuffix ++ "\n" ++
    "--- SYSTEM PROMPT END ---\n\n" ++ formatted
  else formatted

end AmazonQ

namespace Accounts

/-- One entry of an account's per-model quota ledger
(`other.creditsInfo.models[model]` in `account_manager.py`).  Each field
may be absent from the stored JSON, hence the `Option`s; reads use the
source's `.get` defaults.  `resetTime` is the stored ISO-8601 instant,
modelled as an epoch value; `none` covers both an absent and an
unparseable string (the two behave identically: every `fromisoformat`
failure is caught and falls through to the absent-case behaviour). -/
structure LedgerEntry where
  remainingFraction : Option ℚ
  remainingPercent : Option ℚ
  resetTime : Option Int
  deriving DecidableEq, Repr

/-- An account row of the `accounts` table, restricted to the fields the
claims are about: `id`, `enabled`, the quota ledger
(`other.creditsInfo.models`), and the suspension record in `other`. -/
structure Account where
  id : String
  enabled : Bool
  models : List (String × LedgerEntry)
  suspended : Bool := false
  suspendReason : Option String := none
  deriving DecidableEq, Repr

/-- The persisted store: the list of account rows (`id` is the primary
key, so at most one row per id is ever created; lookups take the first
match like a keyed `SELECT`). -/
abbrev Store := List Account

/-- `get_account` (`account_manager.py` lines 181-187). -/
def get_account (s : Store) (accountId : String) : Option Account :=
  s.find? (·.id = accountId)

/-- `UPDATE accounts SET ... WHERE id=?`: apply `f` to the row with the
given id (a missing id makes the update a no-op, as `rowcount == 0`
does in the source). -/
def updateRow (s : Store) (accountId : String) (f : Account → Account) : Store :=
  s.map fun a => if a.id = accountId then f a else a

/-- Lookup of `credits_info["models"][model]`. -/
def findModel (ms : List (String × LedgerEntry)) (model : String) :
    Option LedgerEntry :=
  (ms.find? (·.1 = model)).map (·.2)

/-- Write of `credits_info["models"][model] = e` (replace or insert). -/
def setModel (ms : List (String × LedgerEntry)) (model : String)
    (e : LedgerEntry) : List (String × LedgerEntry) :=
  if (ms.find? (·.1 = model)).isSome then
    ms.map fun p => if p.1 = model then (p.1, e) else p
  else ms ++ [(model, e)]

/-- `mark_model_exhausted` (`account_manager.py` lines 440-478): ensure
the entry exists (creating `{}` when absent), set `remainingFraction` to
0, `remainingPercent` to 0 and `resetTime`, and persist via
`update_account`. -/
def mark_model_exhausted (s : Store) (accountId model : String)
    (resetTime : Int) : Store :=
  match get_account s accountId with
  | none => s
  | some a =>
    let e := (findModel a.models model).getD ⟨none, none, none⟩
    let e := { e with remainingFraction := some 0,
                      remainingPercent := some 0,
                      resetTime := some resetTime }
    updateRow s accountId fun acc => { acc with models := setModel a.models model e }

/-- `restore_model_quota_if_needed` (`account_manager.py` lines
383-437): re-read the account from the store; report `true` when no
entry exists or its fraction is positive; when the fraction is not
positive and `now ≥ resetTime`, write back fraction `1.0` / percent
`100` (keeping `resetTime`) and report `true`; otherwise (reset time
absent, unparseable, or in the future) report `false`. -/
def restore_model_quota_if_needed (s : Store) (accountId model : String)
    (now : Int) : Bool × Store :=
  match get_account s accountId with
  | none => (false, s)
  | some a =>
    match findModel a.models model with
    | none => (true, s)
    | some e =>
      if e.remainingFraction.getD 1 > 0 then (true, s)
      else
        match e.resetTime with
        | none => (false, s)
        | some rt =>
          if now ≥ rt then
            let e' := { e with remainingFraction := some 1,
                               remainingPercent := some 100 }
            (true, updateRow s accountId fun acc =>
              { acc with models := setModel a.models model e' })
          else (false, s)

/-- `is_model_available_for_account` (`account_manager.py` lines
330-380): available when no ledger entry exists or its fraction is
positive; with a zero fraction, the self-heal `restore` runs first when
`now ≥ resetTime`, and its verdict decides; otherwise unavailable.  The
account dict the caller holds is `a`; the restore path re-reads the
store `s` by `a.id`. -/
def is_model_available_for_account (s : Store) (a : Account) (model : String)
    (now : Int) : Bool × Store :=
  match findModel a.models model with
  | none => (true, s)
  | some e =>
    if e.remainingFraction.getD 1 > 0 then (true, s)
    else
      match e.resetTime with
      | none => (false, s)
      | some rt =>
        if now ≥ rt then
          let r := restore_model_quota_if_needed s a.id model now
          if r.1 then (true, r.2) else (false, r.2)
        else (false, s)

end Accounts

namespace Gemini429

open Accounts

/-- `quotaInfo` of one model in a `fetchAvailableModels` response. -/
structure QuotaInfo where
  remainingFraction : Option ℚ
  resetTime : Option Int
  deriving DecidableEq, Repr

/-- A quota snapshot: the `models` object of the `fetchAvailableModels`
response (`displayName` / `recommended` are dropped — no modelled code
reads them). -/
structure Snapshot where
  models : List (String × QuotaInfo)
  deriving DecidableEq, Repr

/-- The Gemini-supported model set of `map_claude_model_to_gemini`
(`gemini/converter.py` lines 145-151). -/
def supportedGeminiModels : List String :=
  ["gemini-2.5-flash", "gemini-2.5-flash-thinking", "gemini-2.5-pro",
   "gemini-3-pro-low", "gemini-3-pro-high", "gemini-2.5-flash-lite",
   "gemini-2.5-flash-image",
   "claude-sonnet-4-5", "claude-sonnet-4-5-thinking",
   "gpt-oss-120b-medium"]

/-- The Claude-to-Gemini mapping table (`gemini/converter.py` lines
157-164). -/
def geminiModelMapping : List (String × String) :=
  [("claude-sonnet-4.5", "claude-sonnet-4-5"),
   ("claude-3-5-sonnet-20241022", "claude-sonnet-4-5"),
   ("claude-3-5-sonnet-20240620", "claude-sonnet-4-5"),
   ("claude-opus-4", "gemini-3-pro-high"),
   ("claude-haiku-4", "claude-haiku-4.5"),
   ("claude-3-haiku-20240307", "gemini-2.5-flash")]

/-- `map_claude_model_to_gemini` (`gemini/converter.py` lines 133-166). -/
def map_claude_model_to_gemini (m : String) : String :=
  if supportedGeminiModels.contains m then m
  else (((geminiModelMapping.find? (·.1 = m)).map (·.2)).getD "claude-sonnet-4-5")

/-- `extract_credits_from_models_data` (`main.py` lines 1181-1233),
restricted to the ledger part: every snapshot model with a present
`remainingFraction` becomes a ledger entry with that fraction, percent
`int(fraction * 100)` and the snapshot's `resetTime` (possibly absent).
The `summary` object is not modelled — no modelled code reads it. -/
def extract_credits (snap : Snapshot) : List (String × LedgerEntry) :=
  snap.models.filterMap fun p =>
    match p.2.remainingFraction with
    | none => none
    | some f => some (p.1, ⟨some f, some ((⌊f * 100⌋ : ℤ) : ℚ), p.2.resetTime⟩)

/-- Outcome of the 429 branch: both constructors are raised
`HTTPException`s that abort the request (there is no account-failover
continuation in `gemini_byte_stream`). -/
inductive Outcome429
  | rateLimited (status : Nat)
  | quotaExhausted (status : Nat)
  deriving DecidableEq, Repr

/-- The 429 handling of `create_gemini_message.gemini_byte_stream`
(`main.py` lines 559-621): map the requested model, read this model's
`resetTime` / `remainingFraction` (defaults `none` / 0) from a freshly
fetched snapshot, fall back to `now + 1h` for a missing reset time,
persist the snapshot's credits into the account's ledger, then classify:
`remainingFraction > 0.03` raises HTTP 429 as a rate limit without
marking anything exhausted; otherwise `mark_model_exhausted` runs and
HTTP 429 is raised as quota-exhausted. -/
def handle_gemini_429 (s : Store) (accountId claudeModel : String)
    (snap : Snapshot) (now : Int) : Outcome429 × Store :=
  let geminiModel := map_claude_model_to_gemini claudeModel
  let quota := (snap.models.find? (·.1 = geminiModel)).map (·.2)
  let resetTimeOpt := quota.bind (·.resetTime)
  let remainingFraction := (quota.bind (·.remainingFraction)).getD 0
  let resetTime := resetTimeOpt.getD (now + 3600)
  let s := updateRow s accountId fun a => { a with models := extract_credits snap }
  if remainingFraction > 3 / 100 then
    (.rateLimited 429, s)
  else
    (.quotaExhausted 429, mark_model_exhausted s accountId geminiModel resetTime)

end Gemini429

namespace Auth

/-- Result of the JWT inspection in `get_account_with_token` /
`get_auth_headers_for_account` (`auth.py` lines 125-142 and 259-276):
the token is split on `.`, the middle segment base64url-decoded and read
as JSON, and the `exp` claim extracted.  `parse = none` models any
failure on that path (wrong segment count, base64 or JSON error — the
`except` at lines 141-142 / 275-276); `exp = none` models a payload
without an `exp` claim.  The decoding itself is the input boundary of
this embedding. -/
structure JwtInfo where
  exp : Option Int
  deriving DecidableEq, Repr

structure AccessToken where
  parse : Option JwtInfo
  deriving DecidableEq, Repr

/-- The `token_expired` computation (`auth.py` lines 122-142): it
becomes `True` only when the JWT parses, carries a truthy (non-zero)
`exp`, and `datetime.now() >= exp_time`; any parse failure leaves it
`False`. -/
def token_expired (tok : AccessToken) (now : Int) : Bool :=
  match tok.parse with
  | some info =>
    match info.exp with
    | some e => if e ≠ 0 ∧ now ≥ e then true else false
    | none => false
  | none => false

/-- The refresh decision `if not access_token or token_expired`
(`auth.py` line 145 / line 279): refresh exactly when the cached token
is absent or `token_expired` holds. -/
def should_refresh (tok : Option AccessToken) (now : Int) : Bool :=
  match tok with
  | none => true
  | some t => token_expired t now

end Auth

namespace Suspension

open Accounts

/-- Leading-match test: `hay` begins with `pat`. -/
def charListStarts : List Char → List Char → Bool
  | _, [] => true
  | [], _ :: _ => false
  | a :: hay, b :: pat => a == b && charListStarts hay pat

/-- Substring test on character lists: some suffix of `hay` begins with
`pat`. -/
def charListHasSub : List Char → List Char → Bool
  | [], pat => pat.isEmpty
  | c :: t, pat => charListStarts (c :: t) pat || charListHasSub t pat

/-- Test `"TEMPORARILY_SUSPENDED" in error_str` (`main.py` line 356):
substring containment of the marker in the error body. -/
def containsSuspendedMarker (body : String) : Bool :=
  charListHasSub body.data "TEMPORARILY_SUSPENDED".data

/-- Outcome of the first upstream response in
`create_message.byte_stream` (`main.py` lines 338-441).
`suspended` and `failStatus` are raised `HTTPException`s;
`refreshAndRetry` is the token-refresh-then-retry continuation
(lines 369-424); `streamBody` is the 200 pass-through. -/
inductive UpstreamOutcome
  | streamBody
  | suspended (status : Nat)
  | refreshAndRetry
  | failStatus (status : Nat)
  deriving DecidableEq, Repr

/-- The suspension write (`main.py` lines 356-366): `other` gains
`suspended=true` with the reason, and `enabled` is set to `False`, in
one `update_account` call.  (The `suspended_at` timestamp is a wall
clock read and is not modelled.) -/
def suspendAccount (s : Store) (accountId : String) : Store :=
  updateRow s accountId fun a =>
    { a with enabled := false,
             suspended := true,
             suspendReason := some "TEMPORARILY_SUSPENDED" }

/-- Status dispatch on the first upstream CodeWhisperer response
(`main.py` lines 348-441): on 401/403 whose body holds the
`TEMPORARILY_SUSPENDED` marker (and an account is selected), the account
is suspended and HTTP 403 is raised with no retry; on 401/403 otherwise
the refresh-and-retry path runs; any other non-200 raises its status;
200 streams the body. -/
def handle_cw_first_response (s : Store) (account : Option String)
    (status : Nat) (body : String) : UpstreamOutcome × Store :=
  if status = 401 ∨ status = 403 then
    match account, containsSuspendedMarker body with
    | some accountId, true => (.suspended 403, suspendAccount s accountId)
    | _, _ => (.refreshAndRetry, s)
  else if status ≠ 200 then (.failStatus status, s)
  else (.streamBody, s)

end Suspension

namespace StreamParser

/-- Parser state of `CodeWhispererStreamParser`
(`kiro2api/parsers/stream_parser.py` lines 10-14): the byte buffer and
the error counter; `max_errors` is the constant 5. -/
structure PState where
  buffer : List Nat
  errorCount : Nat
  deriving DecidableEq, Repr

def maxErrors : Nat := 5

/-- Big-endian `uint32` of the first four bytes (as in
`struct.unpack(">II", ...)`). -/
def be32 : List Nat → Nat
  | b0 :: b1 :: b2 :: b3 :: _ => ((b0 * 256 + b1) * 256 + b2) * 256 + b3
  | _ => 0

/-- Outcome of one iteration of the `while len(self.buffer) >= 12` loop. -/
inductive StepOut
  | more (st : PState) (frame : Option (List Nat))
  | halt (st : PState)
  deriving DecidableEq, Repr

/-- One iteration of `CodeWhispererStreamParser.parse` (lines 25-86):
with fewer than 12 buffered bytes the loop stops; a `total_len` or
`header_len` above 2 000 000 drops the eight prelude-length bytes,
bumps the error counter and clears the buffer once the counter exceeds
`max_errors`; an incomplete frame (`len(buffer) < total_len`) stops the
loop to wait for more data; a complete frame is consumed and its payload
slice `frame[8+header_len : total_len-4]` extracted when the bounds are
sane.  (The `struct.error` branch advancing one byte is unreachable
here: unpacking eight bytes cannot fail under the `len ≥ 12` guard.
The JSON/UTF-8 decoding of the payload is below this embedding's
boundary — the claim is about framing.) -/
def parseStep (st : PState) : StepOut :=
  if st.buffer.length < 12 then .halt st
  else
    let total_len := be32 st.buffer
    let header_len := be32 (st.buffer.drop 4)
    if total_len > 2000000 ∨ header_len > 2000000 then
      let st' : PState := ⟨st.buffer.drop 8, st.errorCount + 1⟩
      let st' := if st'.errorCount > maxErrors then { st' with buffer := [] } else st'
      .more st' none
    else if st.buffer.length < total_len then .halt st
    else
      let frame := st.buffer.take total_len
      let st' : PState := ⟨st.buffer.drop total_len, st.errorCount⟩
      let payload_start := 8 + header_len
      let payload_end := total_len - 4
      if payload_start ≥ payload_end ∨ payload_end > frame.length then
        .more st' none
      else
        .more st' (some ((frame.take payload_end).drop payload_start))

/-- Fuel-driven iteration of `parseStep` (the source's `while` loop; a
frame whose `total_len` is 0 makes the Python loop spin without
progress, which truncation by fuel represents). -/
def parseGo : Nat → PState → List (List Nat) → PState × List (List Nat)
  | 0, st, acc => (st, acc)
  | fuel + 1, st, acc =>
    match parseStep st with
    | .halt st' => (st', acc)
    | .more st' none => parseGo fuel st' acc
    | .more st' (some f) => parseGo fuel st' (acc ++ [f])

/-- `CodeWhispererStreamParser.parse` (lines 16-91): append the chunk,
run the loop, and reset the error counter when any event came out. -/
def parse (st : PState) (chunk : List Nat) : PState × List (List Nat) :=
  let st0 : PState := { st with buffer := st.buffer ++ chunk }
  let r := parseGo (st0.buffer.length + 1) st0 []
  (if r.2.isEmpty then r.1 else { r.1 with errorCount := 0 }, r.2)

end StreamParser

section Helpers

open Accounts

/-- Collecting a block of user messages into the pending accumulator. -/
theorem processLoop_map_user_append {κ : Type}
    (us : List (AmazonQ.UserInputMessage κ)) (l : List (AmazonQ.HistoryEntry κ))
    (pending : List (AmazonQ.UserInputMessage κ)) :
    AmazonQ.processLoop (us.map .user ++ l) pending =
      AmazonQ.processLoop l (pending ++ us) := by
  induction us generalizing pending with
  | nil => simp
  | cons u us ih =>
      simp only [List.map_cons, List.cons_append, AmazonQ.processLoop,
        List.append_eq]
      rw [ih]
      simp [List.append_assoc]

/-- Reading back the row a field update targeted. -/
theorem get_account_updateRow (s : Store) (accountId : String)
    (f : Account → Account) (hf : ∀ a, (f a).id = a.id) :
    get_account (updateRow s accountId f) accountId =
      (get_account s accountId).map f := by
  induction s with
  | nil => rfl
  | cons a s ih =>
      simp only [get_account, updateRow, List.map_cons, List.find?_cons] at *
      by_cases h : a.id = accountId
      · simp [h, hf]
      · simp [h, ih]

/-- Reading back the row after a write that only replaces its quota
ledger (the shape of every `update_account(account_id, other=...)` call
modelled here). -/
theorem get_account_set_models (s : Store) (accountId : String)
    (ms : List (String × LedgerEntry)) :
    get_account (updateRow s accountId fun a => { a with models := ms })
        accountId =
      (get_account s accountId).map fun a => { a with models := ms } :=
  get_account_updateRow s accountId _ (fun _ => rfl)

/-- Reading back after an in-place ledger replacement. -/
theorem findModel_map_set (ms : List (String × LedgerEntry)) (model : String)
    (e : LedgerEntry) (h : (ms.find? (·.1 = model)).isSome) :
    findModel (ms.map fun q => if q.1 = model then (q.1, e) else q) model =
      some e := by
  induction ms with
  | nil => simp at h
  | cons p ms ih =>
      by_cases hp : p.1 = model
      · simp [findModel, List.find?_cons_of_pos, hp]
      · rw [List.find?_cons_of_neg _ (by simpa using hp)] at h
        have htail := ih h
        simp only [List.map_cons, if_neg hp]
        unfold findModel at htail ⊢
        rw [List.find?_cons_of_neg _ (by simpa using hp)]
        exact htail

/-- Reading back a freshly appended ledger entry. -/
theorem findModel_append_new (ms : List (String × LedgerEntry)) (model : String)
    (e : LedgerEntry) (h : ms.find? (·.1 = model) = none) :
    findModel (ms ++ [(model, e)]) model = some e := by
  induction ms with
  | nil => simp [findModel]
  | cons p ms ih =>
      by_cases hp : p.1 = model
      · rw [List.find?_cons_of_pos _ (by simpa using hp)] at h
        exact absurd h (by simp)
      · rw [List.find?_cons_of_neg _ (by simpa using hp)] at h
        have htail := ih h
        simp only [List.cons_append]
        unfold findModel at htail ⊢
        rw [List.find?_cons_of_neg _ (by simpa using hp)]
        exact htail

/-- Reading back a ledger entry just written. -/
theorem findModel_setModel (ms : List (String × LedgerEntry)) (model : String)
    (e : LedgerEntry) : findModel (setModel ms model e) model = some e := by
  unfold setModel
  by_cases h : (ms.find? (·.1 = model)).isSome
  · simpa [h] using findModel_map_set ms model e h
  · have hn : ms.find? (·.1 = model) = none := Option.not_isSome_iff_eq_none.mp h
    rw [hn]
    simpa using findModel_append_new ms model e hn

/-- Membership of an account found by `get_account`. -/
theorem get_account_id (s : Store) (accountId : String) (a : Account)
    (h : get_account s accountId = some a) : a.id = accountId := by
  have := List.find?_some h
  simpa using this

/-- Reading back the row after the suspension write. -/
theorem get_account_suspendAccount (s : Store) (accountId : String) :
    get_account (Suspension.suspendAccount s accountId) accountId =
      (get_account s accountId).map fun a =>
        { a with enabled := false, suspended := true,
                 suspendReason := some "TEMPORARILY_SUSPENDED" } :=
  get_account_updateRow s accountId _ (fun _ => rfl)

/-- Strings of length zero are empty. -/
theorem eq_empty_of_length_zero (b : String) (h : b.length = 0) : b = "" := by
  apply String.ext
  have hd : b.data.length = 0 := h
  simpa using List.length_eq_zero.mp hd

/-- Appending to a non-empty string is never the identity. -/
theorem append_ne_left (a b : String) (hb : b ≠ "") : a ++ b ≠ a := by
  intro h
  apply hb
  apply eq_empty_of_length_zero
  have hlen := congrArg String.length h
  rw [String.length_append] at hlen
  omega

/-- Appending a non-empty string on the right is non-empty. -/
theorem append_ne_empty_right (a b : String) (hb : b ≠ "") : a ++ b ≠ "" := by
  intro h
  apply hb
  apply eq_empty_of_length_zero
  have hlen := congrArg String.length h
  rw [String.length_append] at hlen
  have : ("" : String).length = 0 := rfl
  omega

/-- Appending on the right of a non-empty string is non-empty. -/
theorem append_ne_empty_left (a b : String) (ha : a ≠ "") : a ++ b ≠ "" := by
  intro h
  apply ha
  apply eq_empty_of_length_zero
  have hlen := congrArg String.length h
  rw [String.length_append] at hlen
  have : ("" : String).length = 0 := rfl
  omega

end Helpers

/-- C1: the specified SSE block invariant fails on the Gemini channel.
On the upstream payload whose parts are a text chunk followed by a
function call, `handle_gemini_stream` opens text block 0, then opens
tool-use block 1 while block 0 is still open and never emits
`content_block_stop(index=0)` before `message_stop`: the count of
stops with index 0 is 0 although block 0 was started. -/
theorem gemini_text_block_left_open_on_tool_use :
    Gemini.handleGeminiStream
        [⟨none, [[.text "hi", .functionCall none "f" "{}"]]⟩] =
      [.messageStart,
       .contentBlockStart 0 .text, .contentBlockDelta 0 .text,
       .contentBlockStart 1 .toolUse, .contentBlockDelta 1 .toolUse,
       .contentBlockStop 1,
       .messageDelta 0 0, .messageStop] ∧
    (Gemini.handleGeminiStream
        [⟨none, [[.text "hi", .functionCall none "f" "{}"]]⟩]).count
      (.contentBlockStart 0 .text) = 1 ∧
    (Gemini.handleGeminiStream
        [⟨none, [[.text "hi", .functionCall none "f" "{}"]]⟩]).count
      (.contentBlockStop 0) = 0 := by
  refine ⟨rfl, rfl, rfl⟩

/-- C7: the final `message_delta` of the Gemini handler reports the
usage counters swapped.  On a stream whose `usageMetadata` carries
`promptTokenCount = 7` and `candidatesTokenCount = 3`, the emitted
`message_delta` carries `usage.input_tokens = 3` and
`usage.output_tokens = 7` (source lines 195-199), not `7` / `3` as the
claim states. -/
theorem gemini_usage_tokens_swapped :
    Gemini.handleGeminiStream [⟨some ⟨7, 3⟩, [[.text "hi"]]⟩] =
      [.messageStart,
       .contentBlockStart 0 .text, .contentBlockDelta 0 .text,
       .contentBlockStop 0,
       .messageDelta 3 7, .messageStop] ∧
    (Gemini.handleGeminiStream [⟨some ⟨7, 3⟩, [[.text "hi"]]⟩]).count
      (.messageDelta 7 3) = 0 := by
  refine ⟨rfl, rfl⟩

/-- C2: CodeWhisperer history normalisation.  (i) A run of consecutive
user messages followed by an assistant message collapses into a single
merged user entry before that assistant entry; (ii) the merged content
is the blank-line-separated concatenation, in order, of the run's
non-empty texts; (iii) the result is returned only when it passes the
strict-alternation validation, and any violation is a fatal
(`ValueError`) translation error; (iv) the instance
`[user "a", user "b", assistant "c", user "d"]`: the first three
messages (the history part) translate to
`[user "a\n\nb", assistant "c"]`, and the current message built from
`"d"` frames exactly `"d"` between the USER MESSAGE sentinels. -/
theorem history_run_collapse_and_alternation :
    (∀ (κ : Type) (us : List (AmazonQ.UserInputMessage κ)) (c : String)
        (rest : List (AmazonQ.HistoryEntry κ)), us ≠ [] →
      AmazonQ.processLoop (us.map .user ++ .assistant c :: rest) [] =
        .user (AmazonQ.merge_user_messages us) :: .assistant c ::
          AmazonQ.processLoop rest []) ∧
    (∀ (κ : Type) (us : List (AmazonQ.UserInputMessage κ)),
      (AmazonQ.merge_user_messages us).content =
        String.intercalate "\n\n" (us.filterMap fun m =>
          if m.content = "" then none else some m.content)) ∧
    (∀ (κ : Type) (h : List (AmazonQ.HistoryEntry κ)),
      (AmazonQ.alternationOk (AmazonQ.processLoop h []) = true →
        AmazonQ.process_claude_history_for_amazonq h =
          .ok (AmazonQ.processLoop h [])) ∧
      (AmazonQ.alternationOk (AmazonQ.processLoop h []) = false →
        AmazonQ.process_claude_history_for_amazonq h =
          .error "message alternation violated")) ∧
    (AmazonQ.process_claude_history_for_amazonq (AmazonQ.convert_history_messages
        [⟨.user, "a"⟩, ⟨.user, "b"⟩, ⟨.assistant, "c"⟩]) =
      .ok [.user ⟨"a\n\nb", some AmazonQ.cliEnvState, some "CLI", none⟩,
           .assistant "c"]) ∧
    (∀ ts, AmazonQ.assembleCurrentContent ts "d" false [] "" =
      "--- CONTEXT ENTRY BEGIN ---\n" ++
      "Current time: " ++ ts ++ "\n" ++
      "--- CONTEXT ENTRY END ---\n\n" ++
      "--- USER MESSAGE BEGIN ---\n" ++
      "d" ++ "\n" ++
      "--- USER MESSAGE END ---") := by
  refine ⟨?_, ?_, ?_, ?_, ?_⟩
  · intro κ us c rest hus
    have h1 := processLoop_map_user_append us
      (AmazonQ.HistoryEntry.assistant c :: rest) []
    simp only [List.nil_append] at h1
    rw [h1]
    have hne : us.isEmpty = false := by
      cases us with
      | nil => exact absurd rfl hus
      | cons u us => rfl
    simp [AmazonQ.processLoop, AmazonQ.flushPending, hne]
  · intro κ us
    rfl
  · intro κ h
    constructor <;> intro hh <;>
      simp [AmazonQ.process_claude_history_for_amazonq, hh]
  · rfl
  · intro ts
    rfl

/-- Witness for `history_run_collapse_and_alternation`: the run-collapse
conjunct applied at the two-element run `["a", "b"]` with assistant
`"c"` and empty remainder. -/
theorem history_run_collapse_witness :
    AmazonQ.processLoop
        (([⟨"a", none, none, none⟩, ⟨"b", none, none, none⟩] :
            List (AmazonQ.UserInputMessage Unit)).map .user ++
          .assistant "c" :: []) [] =
      .user (AmazonQ.merge_user_messages
          [⟨"a", none, none, none⟩, ⟨"b", none, none, none⟩]) ::
        .assistant "c" :: AmazonQ.processLoop [] [] :=
  history_run_collapse_and_alternation.1 Unit
    [⟨"a", none, none, none⟩, ⟨"b", none, none, none⟩] "c" [] (by simp)

/-- C4: after `mark_model_exhausted(a, m, t)`, an availability read at
any `now ≥ t` self-heals the ledger entry — `remainingFraction` becomes
`1.0`, `remainingPercent` becomes `100`, the write is persisted into the
store — and the model is reported available. -/
theorem mark_exhausted_then_read_self_heals
    (s : Accounts.Store) (accountId model : String) (t now : Int)
    (acc : Accounts.Account)
    (hacc : Accounts.get_account s accountId = some acc) (hnow : t ≤ now) :
    ∃ a1,
      Accounts.get_account (Accounts.mark_model_exhausted s accountId model t)
        accountId = some a1 ∧
      (Accounts.is_model_available_for_account
        (Accounts.mark_model_exhausted s accountId model t) a1 model now).1 =
        true ∧
      ∃ a2 e2,
        Accounts.get_account
          (Accounts.is_model_available_for_account
            (Accounts.mark_model_exhausted s accountId model t) a1 model now).2
          accountId = some a2 ∧
        Accounts.findModel a2.models model = some e2 ∧
        e2.remainingFraction = some 1 ∧ e2.remainingPercent = some 100 ∧
        e2.resetTime = some t := by
  have hid : acc.id = accountId := get_account_id s accountId acc hacc
  have hnotpos : ¬((0 : ℚ) > 0) := by norm_num
  have hget1 : Accounts.get_account
      (Accounts.mark_model_exhausted s accountId model t) accountId =
      some { acc with models :=
        (Accounts.setModel acc.models model ⟨some 0, some 0, some t⟩) } := by
    simp only [Accounts.mark_model_exhausted, hacc]
    rw [get_account_set_models, hacc]
    rfl
  have hrest : Accounts.restore_model_quota_if_needed
      (Accounts.mark_model_exhausted s accountId model t) accountId model now =
      (true, Accounts.updateRow
        (Accounts.mark_model_exhausted s accountId model t) accountId
        (fun a => { a with models :=
          (Accounts.setModel
            (Accounts.setModel acc.models model ⟨some 0, some 0, some t⟩)
            model ⟨some 1, some 100, some t⟩) })) := by
    simp only [Accounts.restore_model_quota_if_needed, hget1, findModel_setModel,
      Option.getD_some, hnotpos, if_false, ge_iff_le, hnow, if_true]
  have havail : Accounts.is_model_available_for_account
      (Accounts.mark_model_exhausted s accountId model t)
      { acc with models :=
        (Accounts.setModel acc.models model ⟨some 0, some 0, some t⟩) }
      model now =
      (true, Accounts.updateRow
        (Accounts.mark_model_exhausted s accountId model t) accountId
        (fun a => { a with models :=
          (Accounts.setModel
            (Accounts.setModel acc.models model ⟨some 0, some 0, some t⟩)
            model ⟨some 1, some 100, some t⟩) })) := by
    simp only [Accounts.is_model_available_for_account, findModel_setModel,
      Option.getD_some, hnotpos, if_false, ge_iff_le, hnow, if_true, hid, hrest]
  refine ⟨_, hget1, ?_, ?_⟩
  · rw [havail]
  · rw [havail]
    refine ⟨{ acc with models :=
        (Accounts.setModel
          (Accounts.setModel acc.models model ⟨some 0, some 0, some t⟩)
          model ⟨some 1, some 100, some t⟩) },
      ⟨some 1, some 100, some t⟩, ?_, findModel_setModel _ _ _,
      rfl, rfl, rfl⟩
    rw [get_account_set_models, hget1]
    rfl

/-- Witness for `mark_exhausted_then_read_self_heals`: one account `"a"`
with an empty ledger, model `"m"`, reset instant 50, read at 100. -/
theorem mark_exhausted_then_read_self_heals_witness :
    ∃ a1,
      Accounts.get_account
        (Accounts.mark_model_exhausted [⟨"a", true, [], false, none⟩] "a" "m" 50)
        "a" = some a1 ∧
      (Accounts.is_model_available_for_account
        (Accounts.mark_model_exhausted [⟨"a", true, [], false, none⟩] "a" "m" 50)
        a1 "m" 100).1 = true ∧
      ∃ a2 e2,
        Accounts.get_account
          (Accounts.is_model_available_for_account
            (Accounts.mark_model_exhausted [⟨"a", true, [], false, none⟩]
              "a" "m" 50) a1 "m" 100).2
          "a" = some a2 ∧
        Accounts.findModel a2.models "m" = some e2 ∧
        e2.remainingFraction = some 1 ∧ e2.remainingPercent = some 100 ∧
        e2.resetTime = some 50 :=
  mark_exhausted_then_read_self_heals [⟨"a", true, [], false, none⟩] "a" "m"
    50 100 ⟨"a", true, [], false, none⟩ rfl (by norm_num)

/-- C6 (amended): `is_model_available_for_account` decides `false`
exactly when the ledger entry exists, its recorded `remainingFraction`
is not positive, and the reset time is absent (or unparseable) or still
in the future — with the self-heal restore running before the decision
(hence the hypothesis that `a` is the stored row, which the restore
re-reads).  The claim's original form, which requires a present
`resetTime` with `now < resetTime` for every `false` answer, fails when
`resetTime` is absent (see the counterexample). -/
theorem model_unavailable_characterisation
    (s : Accounts.Store) (a : Accounts.Account) (model : String) (now : Int)
    (hconsistent : Accounts.get_account s a.id = some a) :
    (Accounts.is_model_available_for_account s a model now).1 = false ↔
      ∃ e, Accounts.findModel a.models model = some e ∧
        ¬(e.remainingFraction.getD 1 > 0) ∧
        (e.resetTime = none ∨ ∃ rt, e.resetTime = some rt ∧ now < rt) := by
  cases hfm : Accounts.findModel a.models model with
  | none =>
      simp [Accounts.is_model_available_for_account, hfm]
  | some e =>
      by_cases hpos : e.remainingFraction.getD 1 > 0
      · have hLHS : (Accounts.is_model_available_for_account s a model now).1 =
            true := by
          simp only [Accounts.is_model_available_for_account, hfm, if_pos hpos]
        apply iff_of_false (by simp [hLHS])
        rintro ⟨e', he', hpos', -⟩
        injection he' with hee
        subst hee
        exact hpos' hpos
      · cases hrt : e.resetTime with
        | none =>
            have hLHS : (Accounts.is_model_available_for_account s a model
                now).1 = false := by
              simp only [Accounts.is_model_available_for_account, hfm,
                if_neg hpos, hrt]
            exact iff_of_true hLHS ⟨e, rfl, hpos, Or.inl hrt⟩
        | some rt =>
            by_cases hge : now ≥ rt
            · have hrest1 :
                  (Accounts.restore_model_quota_if_needed s a.id model now).1 =
                    true := by
                simp only [Accounts.restore_model_quota_if_needed, hconsistent,
                  hfm, if_neg hpos, hrt, if_pos hge]
              have hLHS : (Accounts.is_model_available_for_account s a model
                  now).1 = true := by
                simp only [Accounts.is_model_available_for_account, hfm,
                  if_neg hpos, hrt, if_pos hge]
                rw [hrest1]
                simp
              apply iff_of_false (by simp [hLHS])
              rintro ⟨e', he', -, hrt'⟩
              injection he' with hee
              subst hee
              rcases hrt' with h | ⟨rt', hrt2, hlt⟩
              · rw [hrt] at h
                exact Option.noConfusion h
              · rw [hrt] at hrt2
                injection hrt2 with h2
                omega
            · have hLHS : (Accounts.is_model_available_for_account s a model
                  now).1 = false := by
                simp only [Accounts.is_model_available_for_account, hfm,
                  if_neg hpos, hrt, if_neg hge]
              exact iff_of_true hLHS ⟨e, rfl, hpos, Or.inr ⟨rt, hrt, by omega⟩⟩

/-- Witness for `model_unavailable_characterisation`: a stored account
whose ledger entry for `"m"` has fraction 0 and reset instant 50, read
at `now = 10 < 50`: the read is unavailable and the characterisation
names the future reset time. -/
theorem model_unavailable_characterisation_witness :
    (Accounts.is_model_available_for_account
        [⟨"a", true, [("m", ⟨some 0, some 0, some 50⟩)], false, none⟩]
        ⟨"a", true, [("m", ⟨some 0, some 0, some 50⟩)], false, none⟩
        "m" 10).1 = false ↔
      ∃ e, Accounts.findModel
          (Accounts.Account.models
            ⟨"a", true, [("m", ⟨some 0, some 0, some 50⟩)], false, none⟩)
          "m" = some e ∧
        ¬(e.remainingFraction.getD 1 > 0) ∧
        (e.resetTime = none ∨ ∃ rt, e.resetTime = some rt ∧ (10 : Int) < rt) :=
  model_unavailable_characterisation
    [⟨"a", true, [("m", ⟨some 0, some 0, some 50⟩)], false, none⟩]
    ⟨"a", true, [("m", ⟨some 0, some 0, some 50⟩)], false, none⟩ "m" 10 rfl

/-- C6 counterexample: an enabled, unsuspended account whose ledger
entry for `"m"` records `remainingFraction = 0` but *no* `resetTime`.
`is_model_available_for_account` answers `false`, yet the claim's
unavailability condition — `remainingFraction == 0 ∧ now < resetTime`,
or disabled/suspended — cannot hold: there is no reset time and the
account is enabled and not suspended, so the claim, as stated, requires
the answer `true`. -/
theorem model_unavailable_without_reset_time :
    (Accounts.is_model_available_for_account
        [⟨"a", true, [("m", ⟨some 0, some 0, none⟩)], false, none⟩]
        ⟨"a", true, [("m", ⟨some 0, some 0, none⟩)], false, none⟩
        "m" 0).1 = false ∧
    Accounts.findModel [("m", ⟨some 0, some 0, none⟩)] "m" =
      some ⟨some 0, some 0, none⟩ ∧
    (⟨some 0, some 0, none⟩ : Accounts.LedgerEntry).resetTime = none ∧
    (⟨"a", true, [("m", ⟨some 0, some 0, none⟩)], false, none⟩ :
      Accounts.Account).enabled = true ∧
    (⟨"a", true, [("m", ⟨some 0, some 0, none⟩)], false, none⟩ :
      Accounts.Account).suspended = false :=
  ⟨rfl, rfl, rfl, rfl, rfl⟩

/-- C5 (amended): the refresh decision of `get_account_with_token` /
`get_auth_headers_for_account` refreshes exactly when the cached token
is absent, or the JWT parses with a truthy (non-zero) `exp` claim that
is already reached (`now ≥ exp`) — there is no 60-second early-refresh
margin — and a JWT parse failure (or an absent `exp` claim) leaves the
cached token in use: no refresh is triggered, contrary to the claim's
"unknown expiry → refresh now". -/
theorem token_refresh_decision :
    (∀ (tok : Option Auth.AccessToken) (now : Int),
      Auth.should_refresh tok now = true ↔
        tok = none ∨ ∃ t e, tok = some t ∧ t.parse = some ⟨some e⟩ ∧
          e ≠ 0 ∧ now ≥ e) ∧
    (∀ now : Int, Auth.should_refresh (some ⟨none⟩) now = false) ∧
    (∀ now : Int, Auth.should_refresh (some ⟨some ⟨none⟩⟩) now = false) := by
  refine ⟨?_, fun now => rfl, fun now => rfl⟩
  intro tok now
  cases tok with
  | none => simp [Auth.should_refresh]
  | some t =>
      cases ht : t.parse with
      | none =>
          have hval : Auth.should_refresh (some t) now = false := by
            simp only [Auth.should_refresh, Auth.token_expired, ht]
          apply iff_of_false (by simp [hval])
          rintro (h | ⟨t', e, ht', hp, -, -⟩)
          · exact Option.noConfusion h
          · injection ht' with htt
            subst htt
            rw [ht] at hp
            exact Option.noConfusion hp
      | some info =>
          obtain ⟨exp0⟩ := info
          cases exp0 with
          | none =>
              have hval : Auth.should_refresh (some t) now = false := by
                simp only [Auth.should_refresh, Auth.token_expired, ht]
              apply iff_of_false (by simp [hval])
              rintro (h | ⟨t', e, ht', hp, -, -⟩)
              · exact Option.noConfusion h
              · injection ht' with htt
                subst htt
                rw [ht] at hp
                injection hp with h1
                injection h1 with h2
                exact Option.noConfusion h2
          | some e =>
              by_cases hcond : e ≠ 0 ∧ now ≥ e
              · have hval : Auth.should_refresh (some t) now = true := by
                  simp only [Auth.should_refresh, Auth.token_expired, ht,
                    if_pos hcond]
                exact iff_of_true hval
                  (Or.inr ⟨t, e, rfl, ht, hcond.1, hcond.2⟩)
              · have hval : Auth.should_refresh (some t) now = false := by
                  simp only [Auth.should_refresh, Auth.token_expired, ht,
                    if_neg hcond]
                apply iff_of_false (by simp [hval])
                rintro (h | ⟨t', e', ht', hp, hne, hge⟩)
                · exact Option.noConfusion h
                · injection ht' with htt
                  subst htt
                  rw [ht] at hp
                  injection hp with h1
                  injection h1 with h2
                  injection h2 with h3
                  subst h3
                  exact hcond ⟨hne, hge⟩

/-- C5 counterexample: a cached token whose JWT `exp` is 30 seconds in
the future (`now = 1000`, `exp = 1030`).  The claim requires a refresh
(`exp < now + 60`), but the code refreshes only at `now ≥ exp` and so
keeps the cached token. -/
theorem token_refresh_no_sixty_second_margin :
    Auth.should_refresh (some ⟨some ⟨some 1030⟩⟩) 1000 = false ∧
    (1030 : Int) < 1000 + 60 := by
  refine ⟨?_, by norm_num⟩
  rfl

/-- C3 (amended): on a Gemini 429 the fresh quota snapshot is persisted
into the account's ledger; if the mapped model's `remainingFraction` in
the snapshot exceeds 0.03 the entry is not marked exhausted (the ledger
equals the snapshot) and the request fails with HTTP 429 as a rate
limit; otherwise `mark_model_exhausted` runs with the snapshot's
`resetTime` (falling back to `now + 1h` when absent) and the request
fails with HTTP 429 as quota-exhausted — it is not retried on a next
account within this request. -/
theorem gemini_429_classification
    (s : Accounts.Store) (accountId claudeModel : String)
    (snap : Gemini429.Snapshot) (now : Int) (acc : Accounts.Account)
    (hacc : Accounts.get_account s accountId = some acc) :
    ∃ a', Accounts.get_account
        (Gemini429.handle_gemini_429 s accountId claudeModel snap now).2
        accountId = some a' ∧
      ((((snap.models.find?
            (·.1 = Gemini429.map_claude_model_to_gemini claudeModel)).map
            (·.2)).bind (·.remainingFraction)).getD 0 > 3 / 100 →
        (Gemini429.handle_gemini_429 s accountId claudeModel snap now).1 =
          .rateLimited 429 ∧
        a'.models = Gemini429.extract_credits snap) ∧
      (¬(((snap.models.find?
            (·.1 = Gemini429.map_claude_model_to_gemini claudeModel)).map
            (·.2)).bind (·.remainingFraction)).getD 0 > 3 / 100 →
        (Gemini429.handle_gemini_429 s accountId claudeModel snap now).1 =
          .quotaExhausted 429 ∧
        ∃ e, Accounts.findModel a'.models
            (Gemini429.map_claude_model_to_gemini claudeModel) = some e ∧
          e.remainingFraction = some 0 ∧ e.remainingPercent = some 0 ∧
          e.resetTime = some ((((snap.models.find?
            (·.1 = Gemini429.map_claude_model_to_gemini claudeModel)).map
            (·.2)).bind (·.resetTime)).getD (now + 3600))) := by
  have hget1 : Accounts.get_account
      (Accounts.updateRow s accountId fun a =>
        { a with models := Gemini429.extract_credits snap }) accountId =
      some { acc with models := Gemini429.extract_credits snap } := by
    rw [get_account_set_models, hacc]
    rfl
  by_cases hfrac : (((snap.models.find?
      (·.1 = Gemini429.map_claude_model_to_gemini claudeModel)).map
      (·.2)).bind (·.remainingFraction)).getD 0 > 3 / 100
  · have hout : Gemini429.handle_gemini_429 s accountId claudeModel snap now =
        (.rateLimited 429, Accounts.updateRow s accountId fun a =>
          { a with models := Gemini429.extract_credits snap }) := by
      simp only [Gemini429.handle_gemini_429, if_pos hfrac]
    refine ⟨{ acc with models := Gemini429.extract_credits snap }, ?_, ?_, ?_⟩
    · rw [hout]
      exact hget1
    · intro _
      exact ⟨by rw [hout], rfl⟩
    · intro hneg
      exact absurd hfrac hneg
  · have hout : Gemini429.handle_gemini_429 s accountId claudeModel snap now =
        (.quotaExhausted 429, Accounts.mark_model_exhausted
          (Accounts.updateRow s accountId fun a =>
            { a with models := Gemini429.extract_credits snap })
          accountId (Gemini429.map_claude_model_to_gemini claudeModel)
          ((((snap.models.find?
            (·.1 = Gemini429.map_claude_model_to_gemini claudeModel)).map
            (·.2)).bind (·.resetTime)).getD (now + 3600))) := by
      simp only [Gemini429.handle_gemini_429, if_neg hfrac]
    have hget2 : Accounts.get_account
        (Gemini429.handle_gemini_429 s accountId claudeModel snap now).2
        accountId = some
        { acc with models := (Accounts.setModel
            (Gemini429.extract_credits snap)
            (Gemini429.map_claude_model_to_gemini claudeModel)
            ⟨some 0, some 0, some ((((snap.models.find?
              (·.1 = Gemini429.map_claude_model_to_gemini claudeModel)).map
              (·.2)).bind (·.resetTime)).getD (now + 3600))⟩) } := by
      rw [hout]
      simp only [Accounts.mark_model_exhausted, hget1]
      rw [get_account_set_models, hget1]
      rfl
    refine ⟨_, hget2, ?_, ?_⟩
    · intro hpos
      exact absurd hpos hfrac
    · intro _
      refine ⟨by rw [hout], _, findModel_setModel _ _ _, rfl, rfl, rfl⟩

/-- Witness for `gemini_429_classification`: one account `"a"`, model
`"claude-sonnet-4-5"` (which maps to itself), a snapshot giving that
model `remainingFraction = 1/2` and reset instant 5000, at `now = 100`.
The snapshot lookup expressions are written in their evaluated form
(fraction `1/2`, reset time `5000`). -/
theorem gemini_429_classification_witness :
    ∃ a', Accounts.get_account
        (Gemini429.handle_gemini_429 [⟨"a", true, [], false, none⟩] "a"
          "claude-sonnet-4-5"
          ⟨[("claude-sonnet-4-5", ⟨some (1 / 2), some 5000⟩)]⟩ 100).2
        "a" = some a' ∧
      ((1 / 2 : ℚ) > 3 / 100 →
        (Gemini429.handle_gemini_429 [⟨"a", true, [], false, none⟩] "a"
          "claude-sonnet-4-5"
          ⟨[("claude-sonnet-4-5", ⟨some (1 / 2), some 5000⟩)]⟩ 100).1 =
          .rateLimited 429 ∧
        a'.models = Gemini429.extract_credits
          ⟨[("claude-sonnet-4-5", ⟨some (1 / 2), some 5000⟩)]⟩) ∧
      (¬(1 / 2 : ℚ) > 3 / 100 →
        (Gemini429.handle_gemini_429 [⟨"a", true, [], false, none⟩] "a"
          "claude-sonnet-4-5"
          ⟨[("claude-sonnet-4-5", ⟨some (1 / 2), some 5000⟩)]⟩ 100).1 =
          .quotaExhausted 429 ∧
        ∃ e, Accounts.findModel a'.models "claude-sonnet-4-5" = some e ∧
          e.remainingFraction = some 0 ∧ e.remainingPercent = some 0 ∧
          e.resetTime = some 5000) :=
  gemini_429_classification [⟨"a", true, [], false, none⟩] "a"
    "claude-sonnet-4-5" ⟨[("claude-sonnet-4-5", ⟨some (1 / 2), some 5000⟩)]⟩
    100 ⟨"a", true, [], false, none⟩ rfl

/-- C3 counterexample: a 429 whose fresh snapshot reports the model at
`remainingFraction = 1/100 ≤ 0.03`.  The claim says the next account is
then tried; the code instead raises HTTP 429 (quota exhausted), aborting
the request — there is no account-failover continuation in
`gemini_byte_stream`. -/
theorem gemini_429_no_account_failover :
    (Gemini429.handle_gemini_429 [⟨"a", true, [], false, none⟩] "a"
      "claude-sonnet-4-5"
      ⟨[("claude-sonnet-4-5", ⟨some (1 / 100), some 5000⟩)]⟩ 100).1 =
      .quotaExhausted 429 ∧
    ((1 : ℚ) / 100 ≤ 3 / 100) := by
  constructor
  · have hred : ((((((⟨[("claude-sonnet-4-5", ⟨some (1 / 100), some 5000⟩)]⟩ :
          Gemini429.Snapshot).models).find?
          (·.1 = Gemini429.map_claude_model_to_gemini "claude-sonnet-4-5")).map
          (·.2)).bind (·.remainingFraction)).getD 0 : ℚ) = 1 / 100 := rfl
    have hfrac : ¬(((((⟨[("claude-sonnet-4-5", ⟨some (1 / 100), some 5000⟩)]⟩ :
          Gemini429.Snapshot).models).find?
          (·.1 = Gemini429.map_claude_model_to_gemini "claude-sonnet-4-5")).map
          (·.2)).bind (·.remainingFraction)).getD 0 > 3 / 100 := by
      rw [hred]
      norm_num
    simp only [Gemini429.handle_gemini_429, if_neg hfrac]
  · norm_num

/-- C9: a 401/403 upstream response whose body carries
`TEMPORARILY_SUSPENDED` suspends the selected account — `other` gains
`suspended = true` with the reason, `enabled` becomes `false` in the
same write — and the request fails with HTTP 403 without entering the
refresh-and-retry path; hence the suspended account has
`enabled = false`. -/
theorem suspension_disables_account
    (s : Accounts.Store) (accountId body : String) (status : Nat)
    (acc : Accounts.Account)
    (hstatus : status = 401 ∨ status = 403)
    (hbody : Suspension.containsSuspendedMarker body = true)
    (hacc : Accounts.get_account s accountId = some acc) :
    (Suspension.handle_cw_first_response s (some accountId) status body).1 =
      .suspended 403 ∧
    (∃ a', Accounts.get_account
        (Suspension.handle_cw_first_response s (some accountId) status body).2
        accountId = some a' ∧
      a'.enabled = false ∧ a'.suspended = true ∧
      a'.suspendReason = some "TEMPORARILY_SUSPENDED") ∧
    (Suspension.handle_cw_first_response s (some accountId) status body).1 ≠
      .refreshAndRetry := by
  have hout : Suspension.handle_cw_first_response s (some accountId) status
      body = (.suspended 403, Suspension.suspendAccount s accountId) := by
    simp only [Suspension.handle_cw_first_response, if_pos hstatus, hbody]
  refine ⟨by rw [hout], ?_, by rw [hout]; simp⟩
  rw [hout]
  refine ⟨{ acc with
            enabled := false,
            suspended := true,
            suspendReason := some "TEMPORARILY_SUSPENDED" }, ?_, rfl, rfl, rfl⟩
  rw [get_account_suspendAccount, hacc]
  rfl

/-- Witness for `suspension_disables_account`: status 403 with the
marker inside the error body, on a store holding one enabled account. -/
theorem suspension_disables_account_witness :
    (Suspension.handle_cw_first_response [⟨"a", true, [], false, none⟩]
        (some "a") 403 "err TEMPORARILY_SUSPENDED x").1 = .suspended 403 ∧
    (∃ a', Accounts.get_account
        (Suspension.handle_cw_first_response [⟨"a", true, [], false, none⟩]
          (some "a") 403 "err TEMPORARILY_SUSPENDED x").2
        "a" = some a' ∧
      a'.enabled = false ∧ a'.suspended = true ∧
      a'.suspendReason = some "TEMPORARILY_SUSPENDED") ∧
    (Suspension.handle_cw_first_response [⟨"a", true, [], false, none⟩]
        (some "a") 403 "err TEMPORARILY_SUSPENDED x").1 ≠ .refreshAndRetry :=
  suspension_disables_account [⟨"a", true, [], false, none⟩] "a"
    "err TEMPORARILY_SUSPENDED x" 403 ⟨"a", true, [], false, none⟩
    (Or.inr rfl) (by decide) rfl

/-- C8 (amended): the event-stream parser never extracts a frame until
the buffer holds at least `total_len` bytes (with sane lengths and an
incomplete frame, the loop halts to wait for more data); and on a
`total_len` or `header_len` above the 2 000 000 bound it advances the
buffer by *eight* bytes (the two prelude length fields) — not one — and
increments the error counter, discarding the whole buffer once the
counter exceeds `max_errors`. -/
theorem stream_parser_framing_behaviour :
    (∀ st : StreamParser.PState, 12 ≤ st.buffer.length →
      ¬(StreamParser.be32 st.buffer > 2000000 ∨
        StreamParser.be32 (st.buffer.drop 4) > 2000000) →
      st.buffer.length < StreamParser.be32 st.buffer →
      StreamParser.parseStep st = .halt st) ∧
    (∀ st : StreamParser.PState, 12 ≤ st.buffer.length →
      (StreamParser.be32 st.buffer > 2000000 ∨
        StreamParser.be32 (st.buffer.drop 4) > 2000000) →
      StreamParser.parseStep st =
        .more ⟨if st.errorCount + 1 > StreamParser.maxErrors then []
               else st.buffer.drop 8, st.errorCount + 1⟩ none) := by
  constructor
  · intro st h1 h2 h3
    simp only [StreamParser.parseStep]
    rw [if_neg (by omega : ¬st.buffer.length < 12), if_neg h2, if_pos h3]
  · intro st h1 h2
    simp only [StreamParser.parseStep]
    rw [if_neg (by omega : ¬st.buffer.length < 12), if_pos h2]
    by_cases hec : st.errorCount + 1 > StreamParser.maxErrors
    · simp [hec]
    · simp [hec]

/-- Witness for `stream_parser_framing_behaviour`: the wait conjunct at
a 12-byte buffer announcing a 20-byte frame, and the bound-violation
conjunct at a 16-byte buffer announcing a ~2.1 GB frame. -/
theorem stream_parser_framing_behaviour_witness :
    StreamParser.parseStep ⟨[0, 0, 0, 20, 0, 0, 0, 0, 0, 0, 0, 0], 0⟩ =
      .halt ⟨[0, 0, 0, 20, 0, 0, 0, 0, 0, 0, 0, 0], 0⟩ ∧
    StreamParser.parseStep
        ⟨[127, 255, 255, 255, 0, 0, 0, 0, 0, 0, 0, 0, 0, 0, 0, 0], 0⟩ =
      .more ⟨[0, 0, 0, 0, 0, 0, 0, 0], 1⟩ none :=
  ⟨stream_parser_framing_behaviour.1 ⟨[0, 0, 0, 20, 0, 0, 0, 0, 0, 0, 0, 0], 0⟩
      (by decide) (by decide) (by decide),
   stream_parser_framing_behaviour.2
      ⟨[127, 255, 255, 255, 0, 0, 0, 0, 0, 0, 0, 0, 0, 0, 0, 0], 0⟩
      (by decide) (by decide)⟩

/-- C8 counterexample: a 16-byte chunk whose `total_len` field reads
2 147 483 647.  One `parse` call leaves the buffer advanced by eight
bytes with error counter 1; the claim's one-byte advance would leave 15
bytes, and dropping 8 differs from dropping 1. -/
theorem stream_parser_advances_eight_bytes :
    StreamParser.parse ⟨[], 0⟩
        [127, 255, 255, 255, 0, 0, 0, 0, 0, 0, 0, 0, 0, 0, 0, 0] =
      (⟨[0, 0, 0, 0, 0, 0, 0, 0], 1⟩, []) ∧
    ([127, 255, 255, 255, 0, 0, 0, 0, 0, 0, 0, 0, 0, 0, 0, 0] :
        List Nat).drop 8 ≠
      ([127, 255, 255, 255, 0, 0, 0, 0, 0, 0, 0, 0, 0, 0, 0, 0] :
        List Nat).drop 1 :=
  ⟨rfl, by decide⟩

/-- C10: whenever a non-empty system prompt is supplied and the current
message is not a pure tool-result, the assembled content opens with the
SYSTEM PROMPT sentinel block, inside which the fixed instruction
sentence — beginning "Attention! Your official CLI command is claude,
NOT q chat." — is appended after the user-supplied system text; in
particular the text inside the markers is not the system prompt
verbatim. -/
theorem system_prompt_attention_sentence
    (ts prompt systemText : String) (hasToolResult : Bool)
    (longTools : List (String × String))
    (hsys : systemText ≠ "")
    (hnotPure : ¬(hasToolResult = true ∧ prompt = "")) :
    ∃ rest,
      AmazonQ.assembleCurrentContent ts prompt hasToolResult longTools
          systemText =
        "--- SYSTEM PROMPT BEGIN ---\n" ++ systemText ++ "\n" ++
          AmazonQ.attentionSuffix ++ "\n" ++ "--- SYSTEM PROMPT END ---\n\n" ++
          rest ∧
      Suspension.charListStarts AmazonQ.attentionSuffix.data
        "Attention! Your official CLI command is claude, NOT q chat.".data =
        true ∧
      systemText ++ "\n" ++ AmazonQ.attentionSuffix ≠ systemText := by
  have h0 : AmazonQ.wrapUserMessage ts prompt ≠ "" :=
    append_ne_empty_right _ _ (by decide)
  have hne : systemText ++ "\n" ++ AmazonQ.attentionSuffix ≠ systemText := by
    intro h
    have hl := congrArg String.length h
    rw [String.length_append, String.length_append] at hl
    have h1 : ("\n" : String).length = 1 := rfl
    omega
  by_cases hlt : longTools.isEmpty
  · refine ⟨AmazonQ.wrapUserMessage ts prompt, ?_, by decide, hne⟩
    simp only [AmazonQ.assembleCurrentContent, if_neg hnotPure, if_pos hlt]
    rw [if_pos ⟨hsys, h0⟩]
  · refine ⟨AmazonQ.toolDocBlock longTools ++ AmazonQ.wrapUserMessage ts prompt,
      ?_, by decide, hne⟩
    simp only [AmazonQ.assembleCurrentContent, if_neg hnotPure, if_neg hlt]
    rw [if_pos ⟨hsys, append_ne_empty_right _ _ h0⟩]

/-- Witness for `system_prompt_attention_sentence`: timestamp `"T"`,
user text `"hi"`, system prompt `"sys"`, no tool result, no over-long
tools. -/
theorem system_prompt_attention_sentence_witness :
    ∃ rest,
      AmazonQ.assembleCurrentContent "T" "hi" false [] "sys" =
        "--- SYSTEM PROMPT BEGIN ---\n" ++ "sys" ++ "\n" ++
          AmazonQ.attentionSuffix ++ "\n" ++ "--- SYSTEM PROMPT END ---\n\n" ++
          rest ∧
      Suspension.charListStarts AmazonQ.attentionSuffix.data
        "Attention! Your official CLI command is claude, NOT q chat.".data =
        true ∧
      "sys" ++ "\n" ++ AmazonQ.attentionSuffix ≠ "sys" :=
  system_prompt_attention_sentence "T" "hi" "sys" false [] (by decide)
    (by simp)
